import Mathlib

/-!
Verification of the fasthttp request/response modelling core
(`src/fasthttp/fasthttp.hpp`) against its specification.

C++ `std::string` values are modelled as `List Nat` of byte values
(a genuine C++ character is a byte `< 256`).  `bytes` converts an
ASCII Lean string literal into this representation for concrete tests.
-/

namespace FastHttp

def bytes (s : String) : List Nat := s.data.map Char.toNat

/-- A byte sequence whose elements all fit in a C++ `char`. -/
def allBytes (s : List Nat) : Prop := ∀ b ∈ s, b < 256

instance (s : List Nat) : Decidable (allBytes s) := by
  unfold allBytes; infer_instance

/-! ### C standard-library character classes -/

/-- `isspace` in the C locale: space, \t, \n, \v, \f, \r. -/
def isCWS (c : Nat) : Bool :=
  c = 32 || c = 9 || c = 10 || c = 11 || c = 12 || c = 13

/-- Value of a hexadecimal digit character, if it is one. -/
def hexVal? (c : Nat) : Option Nat :=
  if 48 ≤ c ∧ c ≤ 57 then some (c - 48)
  else if 65 ≤ c ∧ c ≤ 70 then some (c - 55)
  else if 97 ≤ c ∧ c ≤ 102 then some (c - 87)
  else none

def isDecDigit (c : Nat) : Bool := 48 ≤ c && c ≤ 57

/-! ### `istringstream >> std::hex >> int` on a two-character window

`UrlEncoder::decode` feeds `value.substr(i+1, 2)` (exactly two
characters) through stream hex extraction.  The extraction skips
leading whitespace, accepts one optional sign, then needs at least one
hex digit; it stops at the first character that cannot continue the
numeral (so `"4z"` parses as 4) and fails on a bare `0x`/`0X` prefix
with no digit after it (`strtol` consumes only the `0`, and the
two-character window ends). -/

def cppHexParse2 (d1 d2 : Nat) : Option Int :=
  if isCWS d1 then (hexVal? d2).map Int.ofNat
  else if d1 = 43 then (hexVal? d2).map Int.ofNat
  else if d1 = 45 then (hexVal? d2).map (fun v => -(v : Int))
  else
    match hexVal? d1 with
    | none => none
    | some v1 =>
      match hexVal? d2 with
      | some v2 => some (16 * v1 + v2)
      | none => if d1 = 48 ∧ (d2 = 120 ∨ d2 = 88) then none else some v1

/-- `static_cast<char>(hexValue)` followed by appending the char to a
string: the int is reduced to a byte (two's complement). -/
def intToByte (v : Int) : Nat := (v % 256).toNat

namespace UrlEncoder

/-- `UrlEncoder::isAlphaNumeric`. -/
def isAlphaNumeric (c : Nat) : Bool :=
  (97 ≤ c && c ≤ 122) || (65 ≤ c && c ≤ 90) || (48 ≤ c && c ≤ 57)

/-- The byte passes through `encode` unchanged: alphanumeric or one of
`- _ . ~` (codes 45, 95, 46, 126). -/
def isUnreserved (c : Nat) : Bool :=
  isAlphaNumeric c || c = 45 || c = 95 || c = 46 || c = 126

/-- Uppercase hexadecimal digit character for a value `< 16`
(`std::uppercase` is set while emitting the escape). -/
def hexUpper (n : Nat) : Nat := if n < 10 then 48 + n else 55 + n

/-- One step of `UrlEncoder::encode`: the unreserved byte itself, or
`%` followed by two uppercase hex digits (`setw(2)` with fill `'0'`). -/
def encodeByte (b : Nat) : List Nat :=
  if isUnreserved b then [b] else [37, hexUpper (b / 16), hexUpper (b % 16)]

/-- `UrlEncoder::encode`. -/
def encode : List Nat → List Nat
  | [] => []
  | b :: rest => encodeByte b ++ encode rest

/-- Recursion core of `UrlEncoder::decode`; the fuel argument only
makes the recursion structural, and `decode` always supplies enough
(each loop iteration consumes at least one character).  At a `%` with
at least two characters remaining (`i + 2 < value.length()`), the
two-character window goes through stream hex extraction; on success
the byte value is appended and both characters are consumed, on
failure the literal `%` is copied and scanning resumes at the next
character.  A `+` becomes a space. -/
def decodeFuel : Nat → List Nat → List Nat
  | _, [] => []
  | 0, s => s
  | fuel + 1, c :: rest =>
    if c = 37 then
      match rest with
      | d1 :: d2 :: rest2 =>
        match cppHexParse2 d1 d2 with
        | some v => intToByte v :: decodeFuel fuel rest2
        | none => 37 :: decodeFuel fuel rest
      | _ => 37 :: decodeFuel fuel rest
    else if c = 43 then 32 :: decodeFuel fuel rest
    else c :: decodeFuel fuel rest

/-- `UrlEncoder::decode`. -/
def decode (s : List Nat) : List Nat := decodeFuel s.length s

end UrlEncoder

end FastHttp

namespace FastHttp

open UrlEncoder

/-! ### Sanity checks on the embedding -/

example : bytes "%4z" = [37, 52, 122] := by decide

example : decode (bytes "A%20b") = bytes "A b" := by decide

example : decode (bytes "%4z") = [4] := by decide

example : decode (bytes "%zz") = bytes "%zz" := by decide

example : decode (bytes "a+b") = bytes "a b" := by decide

example : decode (bytes "%4") = bytes "%4" := by decide

example : encode (bytes "a b~") = bytes "a%20b~" := by decide

example : intToByte (-4) = 252 := by decide

/-! ### Round-trip lemmas for C1 -/

lemma decodeFuel_adequate : ∀ fuel fuel' s, s.length ≤ fuel → s.length ≤ fuel' →
    decodeFuel fuel s = decodeFuel fuel' s := by
  intro fuel
  induction fuel with
  | zero =>
    intro fuel' s hs _
    have : s = [] := List.eq_nil_of_length_eq_zero (Nat.le_zero.mp hs)
    subst this
    cases fuel' <;> rfl
  | succ fuel ih =>
    intro fuel' s hs hs'
    cases s with
    | nil => cases fuel' <;> rfl
    | cons c rest =>
      cases fuel' with
      | zero => simp at hs'
      | succ fuel' =>
        simp only [List.length_cons, Nat.add_le_add_iff_right] at hs hs'
        show decodeFuel (fuel + 1) (c :: rest) = decodeFuel (fuel' + 1) (c :: rest)
        rcases rest with _ | ⟨d1, _ | ⟨d2, rest2⟩⟩
        · simp [decodeFuel]
        · have e := ih fuel' [d1] (by simpa using hs) (by simpa using hs')
          simp [decodeFuel, e]
        · have h2 : rest2.length ≤ fuel := by simp at hs; omega
          have h2' : rest2.length ≤ fuel' := by simp at hs'; omega
          have e1 := ih fuel' rest2 h2 h2'
          have e2 := ih fuel' (d1 :: d2 :: rest2) (by simpa using hs) (by simpa using hs')
          simp only [decodeFuel]
          cases hcp : cppHexParse2 d1 d2 <;> simp [hcp, e1, e2]

lemma decode_cons_plain {c : Nat} (rest : List Nat)
    (h37 : c ≠ 37) (h43 : c ≠ 43) :
    decode (c :: rest) = c :: decode rest := by
  simp [decode, decodeFuel, h37, h43]

lemma decode_esc_some {d1 d2 : Nat} {v : Int} (rest : List Nat)
    (h : cppHexParse2 d1 d2 = some v) :
    decode (37 :: d1 :: d2 :: rest) = intToByte v :: decode rest := by
  show decodeFuel (rest.length + 3) (37 :: d1 :: d2 :: rest) = _
  simp only [decodeFuel, if_pos rfl, h]
  rw [decodeFuel_adequate (rest.length + 2) rest.length rest (by omega) le_rfl]
  rfl

lemma unreserved_ne (b : Nat) (h : isUnreserved b = true) : b ≠ 37 ∧ b ≠ 43 := by
  unfold isUnreserved isAlphaNumeric at h
  constructor <;> rintro rfl <;> simp at h

set_option maxRecDepth 4000 in
lemma hex_roundtrip : ∀ b : Nat, b < 256 →
    cppHexParse2 (hexUpper (b / 16)) (hexUpper (b % 16)) = some (b : Int) := by
  decide

lemma intToByte_ofNat (b : Nat) (h : b < 256) : intToByte (b : Int) = b := by
  unfold intToByte
  rw [Int.emod_eq_of_lt (by positivity) (by exact_mod_cast h)]
  simp

/-- C1: for every byte sequence `s`, `decode (encode s) = s`. -/
theorem decode_encode_roundtrip (s : List Nat) (h : allBytes s) :
    decode (encode s) = s := by
  induction s with
  | nil => rfl
  | cons b rest ih =>
    have hb : b < 256 := h b (by simp)
    have hrest : allBytes rest := fun x hx => h x (by simp [hx])
    by_cases hu : isUnreserved b = true
    · have hne := unreserved_ne b hu
      simp only [encode, encodeByte, hu, if_pos, List.singleton_append]
      rw [decode_cons_plain (encode rest) hne.1 hne.2, ih hrest]
    · simp only [encode, encodeByte, hu, Bool.false_eq_true, if_false,
        List.cons_append, List.nil_append]
      rw [decode_esc_some (encode rest) (hex_roundtrip b hb),
        intToByte_ofNat b hb, ih hrest]

/-- C1 witness: the round-trip at a concrete byte sequence containing
unreserved bytes, a space, `+` and `%`. -/
theorem decode_encode_roundtrip_witness :
    allBytes (bytes "a+b %~") ∧ decode (encode (bytes "a+b %~")) = bytes "a+b %~" :=
  ⟨by decide, decode_encode_roundtrip (bytes "a+b %~") (by decide)⟩

/-! ### C3: escape handling in `decode` -/

lemma hexVal_bounds {c v : Nat} (h : hexVal? c = some v) : 48 ≤ c ∧ v < 16 := by
  unfold hexVal? at h
  split_ifs at h <;> simp_all <;> omega

lemma decode_esc_none {d1 d2 : Nat} (rest : List Nat)
    (h : cppHexParse2 d1 d2 = none) :
    decode (37 :: d1 :: d2 :: rest) = 37 :: decode (d1 :: d2 :: rest) := by
  show decodeFuel (rest.length + 3) (37 :: d1 :: d2 :: rest) = _
  simp only [decodeFuel, if_pos rfl, h]
  rfl

lemma cppHexParse2_of_hex {d1 d2 v1 : Nat} (h1 : hexVal? d1 = some v1) :
    cppHexParse2 d1 d2 =
      match hexVal? d2 with
      | some v2 => some ((16 * v1 + v2 : Nat) : Int)
      | none => if d1 = 48 ∧ (d2 = 120 ∨ d2 = 88) then none
                else some ((v1 : Nat) : Int) := by
  have hc := (hexVal_bounds h1).1
  have hws : isCWS d1 = false := by unfold isCWS; simp; omega
  have h43 : d1 ≠ 43 := by omega
  have h45 : d1 ≠ 45 := by omega
  unfold cppHexParse2
  rw [hws, if_neg (by simp), if_neg h43, if_neg h45, h1]
  cases hexVal? d2 <;> simp

/-- C3 counterexample: `decode "%4z"` is not the literal copy-through
the claim describes — stream hex extraction stops at the `z`, succeeds
with value 4, and consumes both window characters, so the output is
the single byte 4. -/
theorem decode_malformed_counterexample :
    decode (bytes "%4z") = [4] ∧ decode (bytes "%4z") ≠ bytes "%4z" := by
  decide

/-- C3 (amended): a well-formed `%XX` with two hex digits is replaced
by the byte value XX; a `+` decodes to a space regardless of context;
a `%` with fewer than two characters remaining is copied through
literally; a `%` whose two-character window fails stream hex
extraction is copied through literally with scanning resuming at the
next character; but when the window starts with a hex digit followed
by a non-hex character (other than the bare `0x`/`0X` prefix), the
escape is *not* copied through — the one-digit value is emitted and
both window characters are consumed. -/
theorem decode_escape_behavior :
    (∀ d1 d2 v1 v2 rest, hexVal? d1 = some v1 → hexVal? d2 = some v2 →
        decode (37 :: d1 :: d2 :: rest) = (16 * v1 + v2) :: decode rest)
  ∧ (∀ rest, decode (43 :: rest) = 32 :: decode rest)
  ∧ (∀ s, s.length ≤ 1 → decode (37 :: s) = 37 :: decode s)
  ∧ (∀ d1 d2 rest, cppHexParse2 d1 d2 = none →
        decode (37 :: d1 :: d2 :: rest) = 37 :: decode (d1 :: d2 :: rest))
  ∧ (∀ d1 d2 v1 rest, hexVal? d1 = some v1 → hexVal? d2 = none →
        ¬(d1 = 48 ∧ (d2 = 120 ∨ d2 = 88)) →
        decode (37 :: d1 :: d2 :: rest) = v1 :: decode rest) := by
  refine ⟨?_, ?_, ?_, ?_, ?_⟩
  · intro d1 d2 v1 v2 rest h1 h2
    have hp : cppHexParse2 d1 d2 = some ((16 * v1 + v2 : Nat) : Int) := by
      rw [cppHexParse2_of_hex h1, h2]
    rw [decode_esc_some rest hp,
      intToByte_ofNat _ (by have := (hexVal_bounds h1).2; have := (hexVal_bounds h2).2; omega)]
  · intro rest
    show decodeFuel (rest.length + 1) (43 :: rest) = _
    simp [decodeFuel, decode]
  · intro s hs
    rcases s with _ | ⟨d1, _ | ⟨d2, rest2⟩⟩
    · rfl
    · rfl
    · simp at hs
  · intro d1 d2 rest h
    exact decode_esc_none rest h
  · intro d1 d2 v1 rest h1 h2 hnx
    have hp : cppHexParse2 d1 d2 = some ((v1 : Nat) : Int) := by
      rw [cppHexParse2_of_hex h1, h2, if_neg hnx]
    rw [decode_esc_some rest hp,
      intToByte_ofNat _ (by have := (hexVal_bounds h1).2; omega)]

/-- C3 witness: the amended behavior at concrete inputs — `%4A` → byte
74, `+` → space, a failing window `zz` copied through. -/
theorem decode_escape_behavior_witness :
    decode [37, 52, 65] = (16 * 4 + 10) :: decode []
    ∧ decode [43] = 32 :: decode []
    ∧ decode [37, 122, 122] = 37 :: decode [122, 122] :=
  ⟨decode_escape_behavior.1 52 65 4 10 [] (by decide) (by decide),
   decode_escape_behavior.2.1 [],
   decode_escape_behavior.2.2.2.1 122 122 [] (by decide)⟩

/-! ### `std::string::find` and numeric conversions -/

/-- `std::string::find(char)`: index of the first occurrence. -/
def findChar (c : Nat) : List Nat → Option Nat
  | [] => none
  | x :: rest => if x = c then some 0 else (findChar c rest).map (· + 1)

/-- `std::string::find(substring)`: index of the first occurrence. -/
def findSub (pat : List Nat) : List Nat → Option Nat
  | [] => if pat = [] then some 0 else none
  | s@(_ :: rest) => if pat.isPrefixOf s then some 0 else (findSub pat rest).map (· + 1)

/-- `size_t` subtraction (wraps modulo `2^64`); `substr` then clamps an
oversized length to the rest of the string. -/
def sub64 (a b : Nat) : Nat := (a + (2 ^ 64 - b)) % 2 ^ 64

/-- Value of a list of decimal digit characters. -/
def decDigitsVal (ds : List Nat) : Nat := ds.foldl (fun a d => 10 * a + (d - 48)) 0

/-- `std::stoi` (`strtol` base 10 on a 32-bit `int`): skip C-locale
whitespace, one optional sign, then at least one decimal digit;
`none` models the thrown `std::invalid_argument` (no digits) or
`std::out_of_range` (outside `int`). -/
def cppStoi (s : List Nat) : Option Int :=
  let s1 := s.dropWhile isCWS
  let signRest : Bool × List Nat :=
    match s1 with
    | 45 :: r => (true, r)
    | 43 :: r => (false, r)
    | _ => (false, s1)
  let ds := signRest.2.takeWhile isDecDigit
  if ds = [] then none
  else
    let v : Int := if signRest.1 then -(decDigitsVal ds : Int) else (decDigitsVal ds : Int)
    if v < -(2 ^ 31) ∨ 2 ^ 31 - 1 < v then none else some v

/-- `std::stoull` (`strtoull` base 10): as `cppStoi` but unsigned
64-bit; a negative numeral wraps modulo `2^64`, and only a magnitude
beyond `2^64 - 1` raises `std::out_of_range`. -/
def cppStoull (s : List Nat) : Option Nat :=
  let s1 := s.dropWhile isCWS
  let signRest : Bool × List Nat :=
    match s1 with
    | 45 :: r => (true, r)
    | 43 :: r => (false, r)
    | _ => (false, s1)
  let ds := signRest.2.takeWhile isDecDigit
  if ds = [] then none
  else
    let v := decDigitsVal ds
    if 2 ^ 64 - 1 < v then none
    else some (if signRest.1 then (2 ^ 64 - v) % 2 ^ 64 else v)

/-! ### The URL parser (`class URL`) -/

structure URL where
  scheme : List Nat
  host : List Nat
  port : Int
  path : List Nat
  query : List Nat
  fragment : List Nat
  deriving DecidableEq

/-- Scheme extraction: everything before the first `"://"`, and the
remainder after it; no separator leaves the scheme empty and the whole
input as remainder. -/
def schemeSplit (url : List Nat) : List Nat × List Nat :=
  match findSub (bytes "://") url with
  | some p => (url.take p, url.drop (p + 3))
  | none => ([], url)

/-- The authority: the remainder after the scheme up to the first `/`,
or all of it if there is no `/`. -/
def hostPortOf (url : List Nat) : List Nat :=
  let temp := (schemeSplit url).2
  match findChar 47 temp with
  | some p => temp.take p
  | none => temp

/-- `URL::parse`.  `none` models the `std::invalid_argument` /
`std::out_of_range` thrown out of the uncaught `std::stoi` call on the
port substring; every other path returns a value. -/
def URL.parse (url : List Nat) : Option URL :=
  let scheme := (schemeSplit url).1
  let temp := (schemeSplit url).2
  let port0 : Int := if scheme = bytes "https" then 443 else 80
  let hostPort := hostPortOf url
  let hp : Option (List Nat × Int) :=
    match findChar 58 hostPort with
    | some q => (cppStoi (hostPort.drop (q + 1))).map (fun v => (hostPort.take q, v))
    | none => some (hostPort, port0)
  match hp with
  | none => none
  | some (host, port) =>
    let pqf : List Nat × List Nat × List Nat :=
      match findChar 47 temp with
      | some p =>
        let t := temp.drop p
        match findChar 63 t, findChar 35 t with
        | some qp, some fp =>
          (t.take qp, (t.drop (qp + 1)).take (sub64 fp (qp + 1)), t.drop (fp + 1))
        | some qp, none => (t.take qp, t.drop (qp + 1), [])
        | none, some fp => (t.take fp, [], t.drop (fp + 1))
        | none, none => (t, [], [])
      | none => (bytes "/", [], [])
    some ⟨scheme, host, port, pqf.1, pqf.2.1, pqf.2.2⟩

example : URL.parse (bytes "http://example.com:8080/a?b#c") =
    some ⟨bytes "http", bytes "example.com", 8080, bytes "/a", bytes "b", bytes "c"⟩ := by
  decide

example : URL.parse (bytes "http://example.com:") = none := by decide

example : URL.parse (bytes "https://h/p") =
    some ⟨bytes "https", bytes "h", 443, bytes "/p", [], []⟩ := by decide

/-! ### C2: totality of the parsing layer -/

/-- C2 counterexample: `URL::parse` is not total — on an authority
with a non-numeric port string the uncaught `std::stoi` throws
`std::invalid_argument`, modelled as `none`. -/
theorem parse_not_total_counterexample :
    URL.parse (bytes "http://example.com:abc/") = none := by
  decide

/-- C2 (amended): `encode`, `decode` and `Cookie::parse` are total by
construction, but `URL::parse` fails exactly when the authority
contains a `:` and the substring after the first `:` does not parse as
an `int` (`std::stoi` throws); with a colon-free authority it always
returns a result. -/
theorem parse_failure_characterization :
    ∀ url : List Nat, URL.parse url = none ↔
      ∃ q, findChar 58 (hostPortOf url) = some q ∧
        cppStoi ((hostPortOf url).drop (q + 1)) = none := by
  intro url
  unfold URL.parse
  rcases h : findChar 58 (hostPortOf url) with _ | q
  · simp [h]
  · rcases hs : cppStoi ((hostPortOf url).drop (q + 1)) with _ | v
    · simp [h, hs]
    · simp [h, hs]

/-! ### C4: URL decomposition and default port -/

/-- C4: the two concrete decompositions given by the spec hold;
whenever the authority has no explicit `:port`, the resulting port is
443 exactly when the parsed scheme equals "https" and 80 otherwise;
and an explicit `:port` in the authority overrides the default with
the `stoi`-parsed value. -/
theorem url_parse_decomposition :
    URL.parse (bytes "https://api.example.com:8080/v1/users?page=1&limit=10#section") =
      some ⟨bytes "https", bytes "api.example.com", 8080,
        bytes "/v1/users", bytes "page=1&limit=10", bytes "section"⟩
  ∧ URL.parse (bytes "http://example.com") =
      some ⟨bytes "http", bytes "example.com", 80, bytes "/", [], []⟩
  ∧ (∀ url u, URL.parse url = some u → findChar 58 (hostPortOf url) = none →
      u.port = if u.scheme = bytes "https" then 443 else 80)
  ∧ (∀ url u q v, URL.parse url = some u →
      findChar 58 (hostPortOf url) = some q →
      cppStoi ((hostPortOf url).drop (q + 1)) = some v →
      u.port = v) := by
  refine ⟨by decide, by decide, ?_, ?_⟩
  · intro url u hp hno
    unfold URL.parse at hp
    simp only [hno, Option.some.injEq] at hp
    subst hp
    rfl
  · intro url u q v hp hq hv
    unfold URL.parse at hp
    simp only [hq, hv, Option.map_some', Option.some.injEq] at hp
    subst hp
    rfl

/-- C4 witness: the default-port conjunct applied at
`"http://example.com"` and the override conjunct at
`"https://h:8080/"`. -/
theorem url_parse_decomposition_witness :
    ((URL.mk (bytes "http") (bytes "example.com") 80 (bytes "/") [] []).port =
      if (URL.mk (bytes "http") (bytes "example.com") 80 (bytes "/") [] []).scheme =
          bytes "https" then 443 else 80)
    ∧ (URL.mk (bytes "https") (bytes "h") 8080 (bytes "/") [] []).port = 8080 :=
  ⟨url_parse_decomposition.2.2.1 (bytes "http://example.com") _ (by decide) (by decide),
   url_parse_decomposition.2.2.2 (bytes "https://h:8080/") _ 1 8080
     (by decide) (by decide) (by decide)⟩

/-! ### Shared string utilities (`toLower`, `trim`, `getline` split) -/

/-- `::tolower` in the C locale, applied bytewise by `toLower`. -/
def toLowerByte (c : Nat) : Nat := if 65 ≤ c ∧ c ≤ 90 then c + 32 else c

/-- The `toLower` utility (`std::transform` with `::tolower`). -/
def toLower (s : List Nat) : List Nat := s.map toLowerByte

/-- The characters stripped by `trim`: `" \t\r\n"`. -/
def isTrimWS (c : Nat) : Bool := c = 32 || c = 9 || c = 13 || c = 10

/-- The `trim` utility: strip leading and trailing `" \t\r\n"`. -/
def trim (s : List Nat) : List Nat :=
  ((s.dropWhile isTrimWS).reverse.dropWhile isTrimWS).reverse

/-- The `std::getline(iss, item, delim)` loop body: a delimiter closes
the current segment, and end-of-input after a delimiter produces no
further segment (the next `getline` extracts nothing and fails). -/
def getlineGo (delim : Nat) (acc : List Nat) : List Nat → List (List Nat)
  | [] => [acc.reverse]
  | c :: rest =>
    if c = delim then
      acc.reverse :: (match rest with | [] => [] | _ :: _ => getlineGo delim [] rest)
    else getlineGo delim (c :: acc) rest

/-- Splitting a string with repeated `std::getline` on a delimiter;
an empty input yields no segments at all. -/
def cppSplit (delim : Nat) : List Nat → List (List Nat)
  | [] => []
  | s => getlineGo delim [] s

example : cppSplit 59 (bytes "a;;b;") = [bytes "a", [], bytes "b"] := by decide

example : cppSplit 59 (bytes ";") = [[]] := by decide

/-! ### The cookie codec (`class Cookie`) -/

structure Cookie where
  name : List Nat
  value : List Nat
  domain : List Nat
  path : List Nat
  secure : Bool
  httpOnly : Bool
  sameSite : List Nat
  deriving DecidableEq

/-- The default `Cookie()` constructor: empty strings, false flags. -/
def Cookie.init : Cookie := ⟨[], [], [], [], false, false, []⟩

/-- One attribute segment of `Cookie::parse` (the body of its `while`
loop): trim, then match `Domain=` / `Path=` / `Secure` / `HttpOnly` /
`SameSite=` in source order; anything else is ignored. -/
def Cookie.applyAttr (c : Cookie) (item0 : List Nat) : Cookie :=
  let item := trim item0
  if (bytes "Domain=").isPrefixOf item then { c with domain := item.drop 7 }
  else if (bytes "Path=").isPrefixOf item then { c with path := item.drop 5 }
  else if item = bytes "Secure" then { c with secure := true }
  else if item = bytes "HttpOnly" then { c with httpOnly := true }
  else if (bytes "SameSite=").isPrefixOf item then { c with sameSite := item.drop 9 }
  else c

/-- `Cookie::parse`: split on `;`; the first segment is `name=value`
(both trimmed, only when it contains `=`); the remaining segments are
attribute segments. -/
def Cookie.parse (s : List Nat) : Cookie :=
  match cppSplit 59 s with
  | [] => Cookie.init
  | first :: rest =>
    let c0 :=
      match findChar 61 first with
      | some e =>
        { Cookie.init with name := trim (first.take e), value := trim (first.drop (e + 1)) }
      | none => Cookie.init
    rest.foldl Cookie.applyAttr c0

/-- C6: the spec's example parses as stated; attribute matching is
case-sensitive (a lowercased `domain=` is ignored) and unrecognized
segments are ignored; attribute segments never touch the name/value
taken from the first segment. -/
theorem cookie_parse_spec :
    Cookie.parse (bytes "sid=abc123; Domain=example.com; Path=/; Secure; HttpOnly") =
      ⟨bytes "sid", bytes "abc123", bytes "example.com", bytes "/", true, true, []⟩
  ∧ Cookie.parse (bytes "a=b; domain=example.com; secure") =
      ⟨bytes "a", bytes "b", [], [], false, false, []⟩
  ∧ Cookie.parse (bytes "a=b; Unknown=zzz; SameSite=Lax") =
      ⟨bytes "a", bytes "b", [], [], false, false, bytes "Lax"⟩
  ∧ ∀ (c : Cookie) (items : List (List Nat)),
      (items.foldl Cookie.applyAttr c).name = c.name ∧
      (items.foldl Cookie.applyAttr c).value = c.value := by
  refine ⟨by decide, by decide, by decide, ?_⟩
  intro c items
  induction items generalizing c with
  | nil => exact ⟨rfl, rfl⟩
  | cons it rest ih =>
    have h : (Cookie.applyAttr c it).name = c.name ∧
        (Cookie.applyAttr c it).value = c.value := by
      simp only [Cookie.applyAttr]
      split_ifs <;> simp
    simp only [List.foldl_cons]
    exact ⟨((ih _).1).trans h.1, ((ih _).2).trans h.2⟩

/-! ### Association-list model of `std::map<std::string, std::string>`

The C++ map is ordered by key; every claim below depends only on
per-key lookup and assignment, which the association list preserves
(`m[k] = v` overwrites an existing entry, otherwise adds one). -/

def assocSet : List (List Nat × List Nat) → List Nat → List Nat → List (List Nat × List Nat)
  | [], k, v => [(k, v)]
  | (k', v') :: rest, k, v =>
    if k' = k then (k, v) :: rest else (k', v') :: assocSet rest k v

def assocGet? : List (List Nat × List Nat) → List Nat → Option (List Nat)
  | [], _ => none
  | (k', v') :: rest, k => if k' = k then some v' else assocGet? rest k

lemma assocGet_assocSet (m : List (List Nat × List Nat)) (k k2 v : List Nat) :
    assocGet? (assocSet m k v) k2 = if k2 = k then some v else assocGet? m k2 := by
  induction m with
  | nil =>
    simp only [assocSet, assocGet?]
    by_cases h : k2 = k
    · rw [if_pos h.symm, if_pos h]
    · rw [if_neg (fun hh => h hh.symm), if_neg h]
  | cons kv rest ih =>
    obtain ⟨k', v'⟩ := kv
    simp only [assocSet]
    by_cases h1 : k' = k
    · rw [if_pos h1]
      subst h1
      simp only [assocGet?]
      by_cases h2 : k' = k2
      · rw [if_pos h2, if_pos h2.symm]
      · rw [if_neg h2, if_neg (fun hh => h2 hh.symm), if_neg h2]
    · rw [if_neg h1]
      simp only [assocGet?]
      by_cases h2 : k' = k2
      · subst h2
        rw [if_pos rfl, if_neg (fun hh : k' = k => h1 hh), if_pos rfl]
      · rw [if_neg h2, if_neg h2, ih]

/-! ### The response model (`class HttpResponse`) -/

structure HttpResponse where
  statusCode : Int
  statusMessage : List Nat
  headers : List (List Nat × List Nat)
  body : List Nat
  cookies : List Cookie
  deriving DecidableEq

/-- The default `HttpResponse()` constructor. -/
def HttpResponse.init : HttpResponse := ⟨0, [], [], [], []⟩

/-- `HttpResponse::setHeader`: store under the lowercased key; every
`set-cookie` occurrence additionally appends the parsed cookie. -/
def HttpResponse.setHeader (r : HttpResponse) (key value : List Nat) : HttpResponse :=
  let lowerKey := toLower key
  let r' := { r with headers := assocSet r.headers lowerKey value }
  if lowerKey = bytes "set-cookie" then
    { r' with cookies := r'.cookies ++ [Cookie.parse value] }
  else r'

/-- `HttpResponse::getHeader`: lookup under the lowercased key, empty
string when absent. -/
def HttpResponse.getHeader (r : HttpResponse) (key : List Nat) : List Nat :=
  match assocGet? r.headers (toLower key) with
  | some v => v
  | none => []

/-- `HttpResponse::setBody`. -/
def HttpResponse.setBody (r : HttpResponse) (b : List Nat) : HttpResponse :=
  { r with body := b }

/-- `HttpResponse::getCookie`: first stored cookie of that name, or a
default-constructed `Cookie`. -/
def HttpResponse.getCookie (r : HttpResponse) (name : List Nat) : Cookie :=
  match r.cookies.find? (fun c => c.name == name) with
  | some c => c
  | none => Cookie.init

/-- `HttpResponse::getContentLength`: parse a non-empty
`content-length` header with `std::stoull`, returning 0 when it
throws; with no (or an empty) header value, the body length. -/
def HttpResponse.getContentLength (r : HttpResponse) : Nat :=
  let lengthStr := r.getHeader (bytes "content-length")
  if lengthStr ≠ [] then
    match cppStoull lengthStr with
    | some v => v
    | none => 0
  else r.body.length

/-- C5: response header keys are stored lowercased; a later
`setHeader` with the same lowercased key overwrites the stored value;
every `set-cookie` occurrence appends one parsed cookie, discarding
none; two `Set-Cookie` stores yield two cookies. -/
theorem response_setHeader_spec :
    (∀ (r : HttpResponse) (k v : List Nat),
        (r.setHeader k v).headers = assocSet r.headers (toLower k) v)
  ∧ (∀ (r : HttpResponse) (k k' v : List Nat),
        (r.setHeader k v).getHeader k' =
          if toLower k' = toLower k then v else r.getHeader k')
  ∧ (∀ (r : HttpResponse) (k v : List Nat),
        (r.setHeader k v).cookies =
          r.cookies ++ (if toLower k = bytes "set-cookie" then [Cookie.parse v] else []))
  ∧ ((HttpResponse.init.setHeader (bytes "Set-Cookie") (bytes "a=1")).setHeader
        (bytes "Set-Cookie") (bytes "b=2")).cookies =
      [⟨bytes "a", bytes "1", [], [], false, false, []⟩,
       ⟨bytes "b", bytes "2", [], [], false, false, []⟩] := by
  refine ⟨?_, ?_, ?_, by decide⟩
  · intro r k v
    simp only [HttpResponse.setHeader]
    split_ifs <;> rfl
  · intro r k k' v
    simp only [HttpResponse.setHeader, HttpResponse.getHeader]
    split_ifs <;> simp [assocGet_assocSet] <;> split_ifs <;> rfl
  · intro r k v
    simp only [HttpResponse.setHeader]
    split_ifs with h <;> simp [h]

/-- C7 counterexample: with body `"hello"` and an unparsable
`Content-Length: abc`, `getContentLength` returns 0, not the body
length 5 the claim requires. -/
theorem contentLength_unparsable_counterexample :
    ((HttpResponse.init.setBody (bytes "hello")).setHeader
        (bytes "Content-Length") (bytes "abc")).getContentLength = 0
    ∧ ((HttpResponse.init.setBody (bytes "hello")).setHeader
        (bytes "Content-Length") (bytes "abc")).body.length = 5 := by
  decide

/-- C7 (amended): `getContentLength` parses a present, non-empty
`content-length` value with `std::stoull`; it falls back to the body
length only when the header is absent or empty, and returns 0 when the
non-empty value is unparsable. -/
theorem contentLength_spec :
    ∀ r : HttpResponse,
      (r.getHeader (bytes "content-length") = [] →
        r.getContentLength = r.body.length)
    ∧ (∀ v, r.getHeader (bytes "content-length") ≠ [] →
        cppStoull (r.getHeader (bytes "content-length")) = some v →
        r.getContentLength = v)
    ∧ (r.getHeader (bytes "content-length") ≠ [] →
        cppStoull (r.getHeader (bytes "content-length")) = none →
        r.getContentLength = 0) := by
  intro r
  refine ⟨?_, ?_, ?_⟩
  · intro h
    simp [HttpResponse.getContentLength, h]
  · intro v hne hv
    simp [HttpResponse.getContentLength, hne, hv]
  · intro hne hv
    simp [HttpResponse.getContentLength, hne, hv]

/-- C7 witness: the three amended branches at concrete responses — no
header (body length), `Content-Length: 7` (parsed 7), and
`Content-Length: abc` (0). -/
theorem contentLength_spec_witness :
    (HttpResponse.init.setBody (bytes "hi")).getContentLength =
      (HttpResponse.init.setBody (bytes "hi")).body.length
    ∧ ((HttpResponse.init.setBody (bytes "hi")).setHeader
        (bytes "Content-Length") (bytes "7")).getContentLength = 7
    ∧ ((HttpResponse.init.setBody (bytes "hi")).setHeader
        (bytes "Content-Length") (bytes "abc")).getContentLength = 0 :=
  ⟨(contentLength_spec _).1 (by decide),
   (contentLength_spec _).2.1 7 (by decide) (by decide),
   (contentLength_spec _).2.2 (by decide) (by decide)⟩

/-- C10: with no stored cookie of the requested name, `getCookie`
returns the default-constructed cookie (all-empty strings, false
flags) rather than failing; and a response holding a stored
default-valued cookie (obtained from an empty `Set-Cookie` value) is
indistinguishable through `getCookie` from one holding none. -/
theorem getCookie_default_spec :
    (∀ (r : HttpResponse) (name : List Nat),
        (∀ c ∈ r.cookies, c.name ≠ name) → r.getCookie name = Cookie.init)
  ∧ (Cookie.init.name = [] ∧ Cookie.init.value = [] ∧ Cookie.init.domain = []
      ∧ Cookie.init.path = [] ∧ Cookie.init.sameSite = []
      ∧ Cookie.init.secure = false ∧ Cookie.init.httpOnly = false)
  ∧ ((HttpResponse.init.setHeader (bytes "Set-Cookie") []).cookies ≠ []
      ∧ (HttpResponse.init.setHeader (bytes "Set-Cookie") []).getCookie [] =
          HttpResponse.init.getCookie []) := by
  refine ⟨?_, by decide, by decide⟩
  intro r name h
  have : r.cookies.find? (fun c => c.name == name) = none := by
    rw [List.find?_eq_none]
    intro c hc
    simpa using h c hc
  simp [HttpResponse.getCookie, this]

/-- C10 witness: `getCookie` on a cookie-free response. -/
theorem getCookie_default_spec_witness :
    HttpResponse.init.getCookie (bytes "x") = Cookie.init :=
  getCookie_default_spec.1 HttpResponse.init (bytes "x") (by decide)

/-! ### The request model and builder -/

inductive Method
  | GET | POST | PUT | DELETE_METHOD | HEAD | OPTIONS | PATCH | TRACE | CONNECT
  deriving DecidableEq

/-- `std::to_string` of an unsigned size. -/
def natToDecBytes (n : Nat) : List Nat := (Nat.toDigits 10 n).map Char.toNat

example : natToDecBytes 120 = bytes "120" := by decide

structure HttpRequest where
  method : Method
  url : List Nat
  headers : List (List Nat × List Nat)
  body : List Nat
  timeout : Int
  cookies : List Cookie
  deriving DecidableEq

/-- `HttpRequest(method, url)`: default timeout 30000 ms. -/
def HttpRequest.init (m : Method) (url : List Nat) : HttpRequest :=
  ⟨m, url, [], [], 30000, []⟩

/-- `HttpRequest::setHeader`: case-sensitive key map. -/
def HttpRequest.setHeader (r : HttpRequest) (k v : List Nat) : HttpRequest :=
  { r with headers := assocSet r.headers k v }

/-- `HttpRequest::getHeader`: empty string when absent. -/
def HttpRequest.getHeader (r : HttpRequest) (k : List Nat) : List Nat :=
  match assocGet? r.headers k with
  | some v => v
  | none => []

/-- `HttpRequest::setBody`. -/
def HttpRequest.setBody (r : HttpRequest) (b : List Nat) : HttpRequest :=
  { r with body := b }

/-- `HttpRequest::setTimeout`. -/
def HttpRequest.setTimeout (r : HttpRequest) (t : Int) : HttpRequest :=
  { r with timeout := t }

structure RequestBuilder where
  method : Method
  url : List Nat
  headers : List (List Nat × List Nat)
  body : List Nat
  timeout : Int
  cookies : List Cookie
  deriving DecidableEq

/-- `RequestBuilder(method, url)`: default timeout 30000 ms. -/
def RequestBuilder.init (m : Method) (url : List Nat) : RequestBuilder :=
  ⟨m, url, [], [], 30000, []⟩

/-- `RequestBuilder::addHeader` (case-sensitive key map). -/
def RequestBuilder.addHeader (b : RequestBuilder) (k v : List Nat) : RequestBuilder :=
  { b with headers := assocSet b.headers k v }

/-- `RequestBuilder::setBody`: store the body and, when it is
non-empty, set `Content-Length` to its decimal length. -/
def RequestBuilder.setBody (b : RequestBuilder) (body : List Nat) : RequestBuilder :=
  let b' := { b with body := body }
  if body ≠ [] then b'.addHeader (bytes "Content-Length") (natToDecBytes body.length)
  else b'

/-- `RequestBuilder::addCookie`. -/
def RequestBuilder.addCookie (b : RequestBuilder) (c : Cookie) : RequestBuilder :=
  { b with cookies := b.cookies ++ [c] }

/-- The `Cookie` header serialized at `build()` time: `name=value`
pairs joined with `"; "` in insertion order. -/
def serializeCookies (cs : List Cookie) : List Nat :=
  List.intercalate (bytes "; ") (cs.map (fun c => c.name ++ [61] ++ c.value))

/-- `RequestBuilder::build`: fresh request from method and URL, copy
the headers, overwrite `Cookie` with the serialized cookie list when
any cookie was accumulated, then set body and timeout. -/
def RequestBuilder.build (b : RequestBuilder) : HttpRequest :=
  let req := HttpRequest.init b.method b.url
  let req := b.headers.foldl (fun r kv => r.setHeader kv.1 kv.2) req
  let req :=
    if b.cookies ≠ [] then req.setHeader (bytes "Cookie") (serializeCookies b.cookies)
    else req
  (req.setBody b.body).setTimeout b.timeout

/-- C8 counterexample: `setBody` on a fresh builder sets
`Content-Length` but no `Content-Type` header. -/
theorem setBody_no_contentType_counterexample :
    assocGet? (((RequestBuilder.init Method.POST (bytes "u")).setBody
        (bytes "x")).headers) (bytes "Content-Type") = none
    ∧ assocGet? (((RequestBuilder.init Method.POST (bytes "u")).setBody
        (bytes "x")).headers) (bytes "Content-Length") = some (bytes "1") := by
  decide

/-- C8 (amended): `setBody` stores the body and, when it is non-empty,
sets `Content-Length` to the decimal length; it never touches
`Content-Type` (the specialized body setters do that). -/
theorem setBody_spec :
    ∀ (b : RequestBuilder) (body : List Nat),
      ((b.setBody body).body = body)
    ∧ (body ≠ [] → (b.setBody body).headers =
        assocSet b.headers (bytes "Content-Length") (natToDecBytes body.length))
    ∧ (body = [] → (b.setBody body).headers = b.headers)
    ∧ assocGet? (b.setBody body).headers (bytes "Content-Type") =
        assocGet? b.headers (bytes "Content-Type") := by
  intro b body
  refine ⟨?_, ?_, ?_, ?_⟩
  · simp only [RequestBuilder.setBody]
    split_ifs <;> rfl
  · intro h
    simp [RequestBuilder.setBody, RequestBuilder.addHeader, h]
  · intro h
    simp [RequestBuilder.setBody, h]
  · simp only [RequestBuilder.setBody]
    split_ifs with h
    · simp only [RequestBuilder.addHeader]
      rw [assocGet_assocSet, if_neg (by decide)]
    · rfl

/-- C8 witness: the amended conjuncts at a one-byte and at an empty
body. -/
theorem setBody_spec_witness :
    (((RequestBuilder.init Method.POST (bytes "u")).setBody (bytes "x")).body = bytes "x")
    ∧ ((RequestBuilder.init Method.POST (bytes "u")).setBody (bytes "x")).headers =
        assocSet (RequestBuilder.init Method.POST (bytes "u")).headers
          (bytes "Content-Length") (natToDecBytes (bytes "x").length)
    ∧ ((RequestBuilder.init Method.POST (bytes "u")).setBody []).headers =
        (RequestBuilder.init Method.POST (bytes "u")).headers :=
  ⟨(setBody_spec (RequestBuilder.init Method.POST (bytes "u")) (bytes "x")).1,
   (setBody_spec (RequestBuilder.init Method.POST (bytes "u")) (bytes "x")).2.1 (by decide),
   (setBody_spec (RequestBuilder.init Method.POST (bytes "u")) []).2.2.1 rfl⟩

/-- C9: when at least one cookie was accumulated, the built request's
`Cookie` header is exactly the accumulated cookies as `name=value`
pairs joined with `"; "` in insertion order; concretely, cookies `a=1`
then `b=2` serialize to `"a=1; b=2"`. -/
theorem build_cookie_header :
    (∀ b : RequestBuilder, b.cookies ≠ [] →
      (b.build).getHeader (bytes "Cookie") = serializeCookies b.cookies)
  ∧ serializeCookies [⟨bytes "a", bytes "1", [], [], false, false, []⟩,
      ⟨bytes "b", bytes "2", [], [], false, false, []⟩] = bytes "a=1; b=2" := by
  refine ⟨?_, by decide⟩
  intro b hb
  simp only [RequestBuilder.build, hb, ne_eq, not_false_eq_true, if_true,
    HttpRequest.getHeader, HttpRequest.setTimeout, HttpRequest.setBody,
    HttpRequest.setHeader]
  rw [assocGet_assocSet, if_pos rfl]

/-- C9 witness: building with two accumulated cookies. -/
theorem build_cookie_header_witness :
    (((RequestBuilder.init Method.GET (bytes "u")).addCookie
        ⟨bytes "a", bytes "1", [], [], false, false, []⟩).addCookie
        ⟨bytes "b", bytes "2", [], [], false, false, []⟩).build.getHeader (bytes "Cookie") =
      serializeCookies (((RequestBuilder.init Method.GET (bytes "u")).addCookie
        ⟨bytes "a", bytes "1", [], [], false, false, []⟩).addCookie
        ⟨bytes "b", bytes "2", [], [], false, false, []⟩).cookies :=
  build_cookie_header.1 _ (by decide)

end FastHttp
